import Mathlib

/-!
Verification of the bono-core shell-confinement and conversation-orchestration
package (Go, package `core`) against its natural-language specification.

The embedding models Go strings as `List Char` (the sources only match ASCII
patterns, where Go's byte-wise `len`/slicing and Unicode-aware `ToLower`
coincide with character-wise operations).  Pure functions of the source are
translated as Lean functions; process execution and the model round-trip are
oracles supplied as parameters; observable side effects (hook consultations,
process invocations) are reified as event lists.
-/

namespace Bono

/-- Go `string`, modelled as a list of characters. -/
abbrev Str := List Char

/-- Go `strings.ToLower` (ASCII case folding suffices for the patterns used). -/
def strToLower (s : Str) : Str := s.map Char.toLower

/-- Go `strings.Contains s pat`: `pat` occurs as a contiguous substring of `s`.
`strings.Contains s "" = true`, matched by `List.isPrefixOf [] _ = true`. -/
def strContains : Str → Str → Bool
  | s@(_ :: rest), pat => pat.isPrefixOf s || strContains rest pat
  | [], pat => pat.isEmpty

/-- Pattern "sandbox". -/
def patSandbox : Str := "sandbox".toList

/-- Pattern "deny". -/
def patDeny : Str := "deny".toList

/-- Pattern "operation not permitted". -/
def patOpNotPermitted : Str := "operation not permitted".toList

/-- Pattern "permission denied". -/
def patPermissionDenied : Str := "permission denied".toList

/-- Pattern "not permitted". -/
def patNotPermitted : Str := "not permitted".toList

/-- The `error` value returned by Go's `cmd.CombinedOutput` when a command
fails: either a `*exec.ExitError` carrying the process exit code, or some
other error (e.g. the process could not be started). -/
inductive ExecError where
  | exitError (code : Int)
  | otherError
  deriving DecidableEq

/-- Model of `sandbox.go isSandboxDenial`: decides whether a failed command was blocked
by sandbox policy, from the case-folded combined output and the error. -/
def isSandboxDenial (output : Str) (err : ExecError) : Bool :=
  let lower := strToLower output
  if strContains lower patSandbox && strContains lower patDeny then
    true
  else if strContains lower patOpNotPermitted then
    true
  else
    match err with
    | .exitError code =>
        if code == 1 && (strContains lower patPermissionDenied ||
            strContains lower patNotPermitted) then
          true
        else
          false
    | .otherError => false

/-- Model of `sandbox.go extractSandboxReason`: a human-readable reason for a denial. -/
def extractSandboxReason (output : Str) : Str :=
  let lower := strToLower output
  if strContains lower ( "network".toList) then
    "network access denied".toList
  else if strContains lower ( "write".toList) ||
      strContains lower patPermissionDenied then
    "write access denied".toList
  else if strContains lower ( "exec".toList) then
    "execution denied".toList
  else if strContains lower ( "read".toList) then
    "read access denied".toList
  else if output.length > 100 then
    output.take 100 ++ "...".toList
  else if output ≠ [] then
    output
  else
    "sandbox policy violation".toList

/-- Model of `SandboxConfig` (config.go). -/
structure SandboxConfig where
  enabled : Bool := false
  allowNetwork : Bool := false
  readPaths : List Str := []
  writePaths : List Str := []
  execPaths : List Str := []
  fallbackOutsideSandbox : Bool := false
  deriving DecidableEq

/-- Fixed prefix of a read allow-rule line. -/
def readRulePre : Str := "(allow file-read* (subpath \"".toList

/-- Fixed prefix of a write allow-rule line. -/
def writeRulePre : Str := "(allow file-write* (subpath \"".toList

/-- Fixed prefix of an exec allow-rule line. -/
def execRulePre : Str := "(allow process-exec (subpath \"".toList

/-- Closing text of a per-path allow-rule line. -/
def ruleClose : Str := "\"))\n".toList

/-- Line `fmt.Sprintf "(allow file-read* (subpath \"%s\"))\n" path`. -/
def readRule (p : Str) : Str := readRulePre ++ p ++ ruleClose

/-- Line `fmt.Sprintf "(allow file-write* (subpath \"%s\"))\n" path`. -/
def writeRule (p : Str) : Str := writeRulePre ++ p ++ ruleClose

/-- Line `fmt.Sprintf "(allow process-exec (subpath \"%s\"))\n" path`. -/
def execRule (p : Str) : Str := execRulePre ++ p ++ ruleClose

/-- The `(deny default)` baseline line. -/
def denyDefaultLine : Str := "(deny default)\n".toList

/-- The network allow line. -/
def allowNetworkLine : Str := "(allow network*)\n".toList

/-- The network deny line. -/
def denyNetworkLine : Str := "(deny network*)\n".toList

/-- The fixed lines written before the per-path rules. -/
def profileHead : List Str :=
  [ "(version 1)\n".toList,
    denyDefaultLine,
    "(allow process-fork)\n".toList,
    "(allow process-exec)\n".toList ]

/-- The fixed "system essentials" and pseudo-terminal lines written after the
per-path rules. -/
def profileEssentials : List Str :=
  [ "(allow file-read-metadata)\n".toList,
    "(allow sysctl-read)\n".toList,
    "(allow mach-lookup)\n".toList,
    "(allow signal)\n".toList,
    "(allow iokit-open)\n".toList,
    "(allow file-read* file-write* (regex #\"^/dev/\"))\n".toList,
    "(allow file-ioctl (regex #\"^/dev/\"))\n".toList ]

/-- Model of `sandbox.go (s *SandboxedExecutor) generateProfile`: the SBPL profile text,
written as the in-order concatenation of the `WriteString` calls (each loop
over a path list concatenates one rule line per entry, in order). -/
def generateProfile (cfg : SandboxConfig) : Str :=
  profileHead.flatten
    ++ (cfg.readPaths.map readRule).flatten
    ++ (cfg.writePaths.map writeRule).flatten
    ++ (cfg.execPaths.map execRule).flatten
    ++ profileEssentials.flatten
    ++ (if cfg.allowNetwork then allowNetworkLine else denyNetworkLine)

/-- The profile as the list of its lines (one entry per `WriteString` call of
the source, in source order); `generateProfile` is its concatenation. -/
def profileLines (cfg : SandboxConfig) : List Str :=
  profileHead
    ++ cfg.readPaths.map readRule
    ++ cfg.writePaths.map writeRule
    ++ cfg.execPaths.map execRule
    ++ profileEssentials
    ++ [if cfg.allowNetwork then allowNetworkLine else denyNetworkLine]

/-- Model of `sandbox.go DefaultSandboxConfig`.  `avail` is `sandboxAvailable()`, `cwd`
is `os.Getwd()`, `tmp` is `os.TempDir()` (environment inputs). -/
def DefaultSandboxConfig (avail : Bool) (cwd tmp : Str) : SandboxConfig where
  enabled := avail
  allowNetwork := false
  readPaths := [ "/".toList]
  writePaths := [cwd, tmp, "/private/tmp".toList, "/private/var/folders".toList]
  execPaths :=
    [ "/bin".toList, "/usr/bin".toList, "/usr/local/bin".toList,
      "/opt/homebrew/bin".toList, "/usr/sbin".toList, "/sbin".toList]
  fallbackOutsideSandbox := true

/-- Model of `ExecMeta` (used throughout; fields as in `sandbox_test.go` and all call
sites): confinement metadata produced once per execution attempt. -/
structure ExecMeta where
  sandboxed : Bool := false
  sandboxError : Bool := false
  sandboxReason : Str := []
  deriving DecidableEq

/-- Model of `ToolResult` with the `ExecMeta` pointer field used by `sandbox.go`
(`nil` pointer = `none`).  Go zero values are the field defaults. -/
structure ToolResult where
  success : Bool := false
  output : Str := []
  status : Str := []
  error : Option ExecError := none
  execMeta : Option ExecMeta := none
  deriving DecidableEq

/-- Outcome the operating system gives one process invocation: combined
output, the error (`none` on exit status 0), and the elapsed seconds already
formatted as by `fmt.Sprintf "%.1f"`. -/
structure RawResult where
  output : Str := []
  err : Option ExecError := none
  elapsed : Str := []
  deriving DecidableEq

/-- The process-wide execution environment: the sandbox configuration given
to `InitSandbox`, whether `sandbox-exec` is available, the directories read
by `DefaultSandboxConfig`, and the operating system's response to running a
command confined (`raw`, via `sandbox-exec -p profile sh -c cmd`) or
unconfined (`rawUn`, via `sh -c cmd`). -/
structure SandboxEnv where
  cfg : SandboxConfig
  avail : Bool
  cwd : Str := []
  tmp : Str := []
  raw : Str → RawResult
  rawUn : Str → RawResult

/-- Status string `fmt.Sprintf "sandbox blocked (%.1fs)" elapsed`. -/
def statusBlocked (elapsed : Str) : Str :=
  "sandbox blocked (".toList ++ elapsed ++ "s)".toList

/-- Status string `fmt.Sprintf "fail (%.1fs)" elapsed`. -/
def statusFail (elapsed : Str) : Str :=
  "fail (".toList ++ elapsed ++ "s)".toList

/-- Status string `fmt.Sprintf "ok (%.1fs)" elapsed`. -/
def statusOk (elapsed : Str) : Str :=
  "ok (".toList ++ elapsed ++ "s)".toList

/-- Model of `sandbox.go (s *SandboxedExecutor) Run`: run `command` under the compiled
profile, classify a failure with the denial classifier, and return the
result and metadata. -/
def SandboxedRun (env : SandboxEnv) (command : Str) : ToolResult × ExecMeta :=
  let r := env.raw command
  match r.err with
  | some e =>
      if isSandboxDenial r.output e then
        let meta : ExecMeta :=
          { sandboxed := true, sandboxError := true,
            sandboxReason := extractSandboxReason r.output }
        ({ success := false, output := r.output, error := some e,
           status := statusBlocked r.elapsed, execMeta := some meta }, meta)
      else
        let meta : ExecMeta := { sandboxed := true }
        ({ success := false, output := r.output, error := some e,
           status := statusFail r.elapsed, execMeta := some meta }, meta)
  | none =>
      let meta : ExecMeta := { sandboxed := true }
      ({ success := true, output := r.output,
         status := statusOk r.elapsed, execMeta := some meta }, meta)

/-- Model of `sandbox.go (p *PassthroughExecutor) Run`: run `command` directly. -/
def PassthroughRun (env : SandboxEnv) (command : Str) : ToolResult × ExecMeta :=
  let meta : ExecMeta := { sandboxed := false }
  let r := env.rawUn command
  match r.err with
  | some e =>
      ({ success := false, output := r.output, error := some e,
         status := statusFail r.elapsed, execMeta := some meta }, meta)
  | none =>
      ({ success := true, output := r.output,
         status := statusOk r.elapsed, execMeta := some meta }, meta)

/-- Model of `sandbox.go NewShellExecutor` / `IsSandboxEnabled`: the initialized
executor is the sandboxed one exactly when the config enables sandboxing and
`sandbox-exec` is available. -/
def IsSandboxEnabled (env : SandboxEnv) : Bool :=
  env.cfg.enabled && env.avail

/-- Model of `tools.go ExecuteShell`: run via the configured executor. -/
def ExecuteShell (env : SandboxEnv) (command : Str) : ToolResult :=
  if IsSandboxEnabled env then (SandboxedRun env command).1
  else (PassthroughRun env command).1

/-- Model of `tools.go ExecuteShellUnsandboxed`: run directly via a
`PassthroughExecutor`. -/
def ExecuteShellUnsandboxed (env : SandboxEnv) (command : Str) : ToolResult :=
  (PassthroughRun env command).1

/-- Whether a result's metadata marks a sandbox denial
(`result.ExecMeta != nil && result.ExecMeta.SandboxError`). -/
def metaSandboxError (r : ToolResult) : Bool :=
  match r.execMeta with
  | some m => m.sandboxError
  | none => false

/-- Reads `result.ExecMeta.SandboxReason` (read only when the metadata exists). -/
def metaSandboxReason (r : ToolResult) : Str :=
  match r.execMeta with
  | some m => m.sandboxReason
  | none => []

/-- Observable actions of the shell-execution layer, in the order they
happen: process invocations and hook consultations. -/
inductive ShellEvent where
  | execSandboxed (cmd : Str)
  | execUnsandboxed (cmd : Str)
  | consultFallback (cmd reason : Str)
  | consultPre (name : Str)
  deriving DecidableEq

/-- The fixed "cancelled by user" result. -/
def cancelledResult : ToolResult :=
  { success := false, output := "cancelled by user".toList,
    status := "cancelled".toList }

/-- Model of `tools.go ExecuteShellWithSandbox` (the free function used by the
turn-capped agent): sandbox disabled → execute directly; otherwise run
sandboxed, and on a denial consult `onFallback` with (command, reason) — on
approval rerun the same command unsandboxed, else (or with no callback)
return the sandboxed result.  Paired with the list of observable events. -/
def ExecuteShellWithSandbox (env : SandboxEnv)
    (onFallback : Option (Str → Str → Bool)) (command : Str) :
    ToolResult × List ShellEvent :=
  if !IsSandboxEnabled env then
    (ExecuteShellUnsandboxed env command, [.execUnsandboxed command])
  else
    let result := ExecuteShell env command
    if metaSandboxError result then
      match onFallback with
      | some f =>
          let reason := metaSandboxReason result
          if f command reason then
            (ExecuteShellUnsandboxed env command,
              [.execSandboxed command, .consultFallback command reason,
               .execUnsandboxed command])
          else
            (result, [.execSandboxed command, .consultFallback command reason])
      | none => (result, [.execSandboxed command])
    else
      (result, [.execSandboxed command])

/-- The tool name "run_shell". -/
def runShellName : Str := "run_shell".toList

/-- Decoded tool-call arguments (`map[string]any` restricted to the string
entries the sources read). -/
abbrev Args := List (Str × Str)

/-- Lookup `args[key].(string)` with the zero value on a missing key. -/
def lookupStr (args : Args) (key : Str) : Str :=
  match args.find? (fun kv => kv.1 = key) with
  | some kv => kv.2
  | none => []

/-- Model of `agent.go (a *Agent) executeShellWithSandbox` (the subagent variant):
sandbox enabled → run sandboxed, negotiate fallback on denial (decline gives
a "cancelled by user" result), notify `OnSubagentToolCall` after a
non-denial; sandbox disabled → consult `OnSubagentToolCall` once before any
execution and execute only on approval. -/
def agentExecuteShellWithSandbox (env : SandboxEnv)
    (onSandboxFallback : Option (Str → Str → Bool))
    (onSubagentToolCall : Option (Str → Args → ExecMeta → Bool))
    (command : Str) (args : Args) : ToolResult × List ShellEvent :=
  if IsSandboxEnabled env then
    let result := ExecuteShell env command
    if metaSandboxError result then
      if env.cfg.fallbackOutsideSandbox ||
          (DefaultSandboxConfig env.avail env.cwd env.tmp).fallbackOutsideSandbox then
        match onSandboxFallback with
        | some f =>
            let reason := metaSandboxReason result
            if !f command reason then
              (cancelledResult,
                [.execSandboxed command, .consultFallback command reason])
            else
              (ExecuteShellUnsandboxed env command,
                [.execSandboxed command, .consultFallback command reason,
                 .execUnsandboxed command])
        | none => (result, [.execSandboxed command])
      else
        (result, [.execSandboxed command])
    else
      match onSubagentToolCall with
      | some _ =>
          -- notification-only call (its argument is `result.ExecMeta`, or a
          -- fresh `ExecMeta{Sandboxed: true}` when nil); the hook's return
          -- value is discarded by the source
          (result, [.execSandboxed command, .consultPre runShellName])
      | none => (result, [.execSandboxed command])
  else
    match onSubagentToolCall with
    | some h =>
        let meta : ExecMeta := { sandboxed := false }
        if !h runShellName args meta then
          (cancelledResult, [.consultPre runShellName])
        else
          (ExecuteShellUnsandboxed env command,
            [.consultPre runShellName, .execUnsandboxed command])
    | none =>
        (ExecuteShellUnsandboxed env command, [.execUnsandboxed command])

/-- A single element of a `[]any` content list: a `map[string]any` reduced to
the `"type"` and `"text"` string entries the source reads (a missing or
non-string entry reads as `""`), or any non-map element. -/
inductive Part where
  | obj (ptype ptext : Str)
  | nonObj
  deriving DecidableEq

/-- A message's `Content any` field: a plain string, an ordered list of typed
parts, or any other shape (including `nil`). -/
inductive Content where
  | str (s : Str)
  | parts (l : List Part)
  | other
  deriving DecidableEq

/-- Model of `FunctionCall` (types.go): tool name and raw JSON argument payload. -/
structure FunctionCall where
  name : Str := []
  arguments : Str := []
  deriving DecidableEq

/-- Model of `ToolCall` (types.go). -/
structure ToolCall where
  id : Str := []
  type : Str := []
  function : FunctionCall := {}
  deriving DecidableEq

/-- Model of `Message` (types.go). -/
structure Message where
  role : Str := []
  content : Content := .other
  toolCalls : List ToolCall := []
  toolCallID : Str := []
  deriving DecidableEq

/-- The body of `messageContent`'s loop over content parts: skip non-map
parts, parts whose type is neither "text" nor "output_text", and parts with
empty text; otherwise `b.WriteString(text)`. -/
def partStep (b : Str) (part : Part) : Str :=
  match part with
  | .nonObj => b
  | .obj t text =>
      if t ≠ "text".toList ∧ t ≠ "output_text".toList then b
      else if text = [] then b
      else b ++ text

/-- Model of `agent.go messageContent`: the extracted textual content of a (possibly
nil) assistant message. -/
def messageContent (msg : Option Message) : Str :=
  match msg with
  | none => []
  | some m =>
      match m.content with
      | .str v => v
      | .parts v => v.foldl partStep []
      | .other => []

/-- The specification's wording for the typed-parts case: concatenate, in
order, exactly the texts of the parts whose type is "text" or "output_text",
skipping all other parts. -/
def partsTextSpec (l : List Part) : Str :=
  (l.filterMap
    (fun part =>
      match part with
      | .obj t text =>
          if t = "text".toList ∨ t = "output_text".toList then some text
          else none
      | .nonObj => none)).flatten

/-- Model of `json.Unmarshal` of an argument payload, as an oracle (a malformed
payload decodes to the empty mapping, which the oracle may also return). -/
abbrev DecodeOracle := Str → Args

/-- The caller-supplied hooks and tool implementations the turn loop
consults: `OnToolCall` (nil = auto-approve), the JSON decoder, the plain
tool dispatcher for non-shell tools, and `OnSandboxFallback`. -/
structure ChatHooks where
  onToolCall : Option (Str → Args → Bool) := none
  onSandboxFallback : Option (Str → Str → Bool) := none
  decode : DecodeOracle
  execTool : Str → Args → ToolResult

/-- The check `a.OnToolCall != nil && !a.OnToolCall(name, args)` decides cancellation;
a nil hook approves everything. -/
def approveCall (hooks : ChatHooks) (name : Str) (args : Args) : Bool :=
  match hooks.onToolCall with
  | none => true
  | some f => f name args

/-- One tool call's execution (agent.go, turn-capped revision): `run_shell`
goes through `ExecuteShellWithSandbox`, every other name through
`ExecuteTool`. -/
def execCall (env : SandboxEnv) (hooks : ChatHooks) (tc : ToolCall) : ToolResult :=
  let args := hooks.decode tc.function.arguments
  if tc.function.name = runShellName then
    (ExecuteShellWithSandbox env hooks.onSandboxFallback
      (lookupStr args ( "command".toList))).1
  else
    hooks.execTool tc.function.name args

/-- The tool-call batch loop shared by `Chat` and `runPreTasks` (turn-capped
revision): for each call in order, consult the approval hook — a decline
stops the batch with `cancelled = true`; otherwise execute and collect the
pending tool-role message.  Returns the collected messages (in call order)
and the cancellation flag. -/
def execBatch (env : SandboxEnv) (hooks : ChatHooks) :
    List ToolCall → List Message × Bool
  | [] => ([], false)
  | tc :: rest =>
      let args := hooks.decode tc.function.arguments
      if !approveCall hooks tc.function.name args then
        ([], true)
      else
        let result := execCall env hooks tc
        let (ms, c) := execBatch env hooks rest
        ({ role := "tool".toList, toolCallID := tc.id,
           content := .str result.output } :: ms, c)

/-- Constant `maxChatTurns` (agent.go). -/
def maxChatTurns : Nat := 10

/-- Constant `maxPreTaskTurns` (agent.go). -/
def maxPreTaskTurns : Nat := 10

/-- Terminal outcomes of `Chat` (turn-capped revision): the final text answer
(`(content, nil)`), `ErrEmptyResponse`, the cancelled turn (`("", nil)` after
rollback), and `ErrMaxTurnsExceeded`. -/
inductive ChatOutcome where
  | answer (s : Str)
  | emptyResponse
  | cancelled
  | maxTurnsExceeded
  deriving DecidableEq

/-- The model round-trip `a.client.ChatCompletion(ctx, msgs)`, as an oracle
from the full ordered history to the assistant message (transport errors are
out of scope). -/
abbrev RespondOracle := List Message → Message

/-- The `Chat` turn loop (agent.go, turn-capped revision).  The Go loop runs
`for turns := 0; ; turns++` and exits with `ErrMaxTurnsExceeded` once
`turns >= maxChatTurns`; here `remaining = maxChatTurns - turns` counts the
same loop down so that the recursion is structural.  Returns the outcome,
the value of `turns` on exit (= completed model round-trips), and the final
`a.msgs` history. -/
def chatGo (env : SandboxEnv) (hooks : ChatHooks) (respond : RespondOracle) :
    Nat → Nat → List Message → ChatOutcome × Nat × List Message
  | 0, turns, msgs => (.maxTurnsExceeded, turns, msgs)
  | remaining + 1, turns, msgs =>
      let msg := respond msgs
      let msgs1 := msgs ++ [msg]
      let content := messageContent (some msg)
      -- (OnMessage is display-only and does not affect state)
      if msg.toolCalls.isEmpty then
        if content = [] then (.emptyResponse, turns, msgs1)
        else (.answer content, turns, msgs1)
      else
        let (results, cancelled) := execBatch env hooks msg.toolCalls
        if cancelled then
          -- a.msgs = a.msgs[:len(a.msgs)-1]
          (.cancelled, turns, msgs1.dropLast)
        else
          chatGo env hooks respond remaining (turns + 1) (msgs1 ++ results)

/-- Model of `Chat` (agent.go, turn-capped revision), from the history accumulated so
far: append the user message, then run the turn loop (pre-tasks, run on the
first call only, are modelled separately by `runPreTask`). -/
def Chat (env : SandboxEnv) (hooks : ChatHooks) (respond : RespondOracle)
    (msgs0 : List Message) (input : Str) : ChatOutcome × Nat × List Message :=
  chatGo env hooks respond maxChatTurns 0
    (msgs0 ++ [{ role := "user".toList, content := .str input }])

/-- Model of `PreTaskConfig` (config.go). -/
structure PreTaskConfig where
  name : Str := []
  systemPrompt : Str := []
  input : Str := []
  doneMarker : Str := []
  deriving DecidableEq

/-- Terminal outcomes of one pre-task's loop (turn-capped revision). -/
inductive PreTaskOutcome where
  | completed
  | emptyResponse
  | cancelled
  | maxTurnsExceeded
  deriving DecidableEq

/-- The inner pre-task turn loop of `runPreTasks` (agent.go, turn-capped
revision), with the same countdown encoding of `for turns := 0; ; turns++`
as `chatGo`.  NOTE (faithful to the source): the completion branch breaks on
any no-tool-call response with non-empty extracted text — `task.DoneMarker`
is never consulted, although the loop's own comment reads "Run task loop
until DoneMarker detected". -/
def preTaskGo (env : SandboxEnv) (hooks : ChatHooks) (respond : RespondOracle) :
    Nat → Nat → List Message → PreTaskOutcome × Nat × List Message
  | 0, turns, msgs => (.maxTurnsExceeded, turns, msgs)
  | remaining + 1, turns, msgs =>
      let msg := respond msgs
      let msgs1 := msgs ++ [msg]
      let content := messageContent (some msg)
      if msg.toolCalls.isEmpty then
        if content = [] then (.emptyResponse, turns, msgs1)
        else (.completed, turns, msgs1)
      else
        let (results, cancelled) := execBatch env hooks msg.toolCalls
        if cancelled then
          (.cancelled, turns, msgs1.dropLast)
        else
          preTaskGo env hooks respond remaining (turns + 1) (msgs1 ++ results)

/-- One pre-task of `runPreTasks` (agent.go, turn-capped revision): isolated
history seeded with the task's system prompt and its input (defaulting to
"Begin"), then the turn loop with its own budget. -/
def runPreTask (env : SandboxEnv) (hooks : ChatHooks) (respond : RespondOracle)
    (task : PreTaskConfig) : PreTaskOutcome × Nat × List Message :=
  let input := if task.input = [] then "Begin".toList else task.input
  preTaskGo env hooks respond maxPreTaskTurns 0
    [ { role := "system".toList, content := .str task.systemPrompt },
      { role := "user".toList, content := .str input } ]

/-- The termination condition of the earlier, marker-checking revision of
`runPreTasks` (agent.go lines 1144–1155): a no-tool-call response whose
content is a plain string breaks the loop only when that string contains the
task's `DoneMarker`; otherwise the loop continues.  Embedded for comparison
with an explicit fuel bound (that revision's loop has no turn cap). -/
def preTaskGoMarker (respond : RespondOracle) (marker : Str) :
    Nat → Nat → List Message → Option (Nat × List Message)
  | 0, _, _ => none
  | fuel + 1, trips, msgs =>
      let msg := respond msgs
      let msgs1 := msgs ++ [msg]
      if msg.toolCalls.isEmpty then
        match msg.content with
        | .str content =>
            if strContains content marker then some (trips + 1, msgs1)
            else preTaskGoMarker respond marker fuel (trips + 1) msgs1
        | _ => preTaskGoMarker respond marker fuel (trips + 1) msgs1
      else
        -- tool-call turns of that revision are irrelevant to the scenario
        preTaskGoMarker respond marker fuel (trips + 1) msgs1

/-- C1: the denial classifier decides `isDenial` by the spec's four rules in
order, first hit wins, over the case-folded combined output: (1) output
contains both "sandbox" and "deny" → denial regardless of exit code; (2)
output contains "operation not permitted" → denial; (3) exit code exactly 1
together with output containing "permission denied" or "not permitted" →
denial; (4) otherwise — for every output matching none of these patterns —
not a denial, even on a nonzero exit.  Since every rule yields the same
verdict, first-hit-wins over rules (1)–(3) is exactly their disjunction, and
rule (4) is the reverse implication. -/
theorem C1_denial_classifier (output : Str) (err : ExecError) :
    isSandboxDenial output err = true ↔
      ((strContains (strToLower output) patSandbox = true ∧
        strContains (strToLower output) patDeny = true)
       ∨ strContains (strToLower output) patOpNotPermitted = true
       ∨ (err = .exitError 1 ∧
          (strContains (strToLower output) patPermissionDenied = true ∨
           strContains (strToLower output) patNotPermitted = true))) := by
  unfold isSandboxDenial
  cases err with
  | exitError c =>
      simp only [ExecError.exitError.injEq]
      split_ifs with h1 h2 h3 <;>
        simp_all [Bool.and_eq_true, Bool.or_eq_true, beq_iff_eq]
  | otherError =>
      dsimp only
      split_ifs with h1 h2 <;> simp_all [Bool.and_eq_true]

/-- C8: for every denial output, the extracted reason follows the spec's
priority order over the case-folded output: "network" → "network access
denied"; else "write" or "permission denied" → "write access denied"; else
"exec" → "execution denied"; else "read" → "read access denied"; else if the
output is longer than 100 characters, its first 100 characters suffixed with
"..."; else a non-empty output verbatim; else the fixed string "sandbox
policy violation". -/
theorem C8_reason_extraction (output : Str) :
    extractSandboxReason output =
      (if strContains (strToLower output) ( "network".toList) = true then
        "network access denied".toList
      else if strContains (strToLower output) ( "write".toList) = true ∨
          strContains (strToLower output) patPermissionDenied = true then
        "write access denied".toList
      else if strContains (strToLower output) ( "exec".toList) = true then
        "execution denied".toList
      else if strContains (strToLower output) ( "read".toList) = true then
        "read access denied".toList
      else if 100 < output.length then
        output.take 100 ++ "...".toList
      else if output = [] then
        "sandbox policy violation".toList
      else
        output) := by
  unfold extractSandboxReason
  split_ifs <;> simp_all [Bool.or_eq_true]

/-- Lemma: `partsTextSpec` skips a non-map part. -/
theorem partsTextSpec_cons_nonObj (t : List Part) :
    partsTextSpec (.nonObj :: t) = partsTextSpec t := by
  simp [partsTextSpec, List.filterMap_cons]

/-- Lemma: `partsTextSpec` keeps the text of a "text"/"output_text" part. -/
theorem partsTextSpec_cons_obj_pos (ty tx : Str) (t : List Part)
    (h : ty = "text".toList ∨ ty = "output_text".toList) :
    partsTextSpec (.obj ty tx :: t) = tx ++ partsTextSpec t := by
  unfold partsTextSpec
  rw [List.filterMap_cons]
  dsimp only
  rw [if_pos h]
  simp

/-- Lemma: `partsTextSpec` skips a part of any other type. -/
theorem partsTextSpec_cons_obj_neg (ty tx : Str) (t : List Part)
    (h : ¬(ty = "text".toList ∨ ty = "output_text".toList)) :
    partsTextSpec (.obj ty tx :: t) = partsTextSpec t := by
  unfold partsTextSpec
  rw [List.filterMap_cons]
  dsimp only
  rw [if_neg h]

/-- Unfolding of `partStep` on a map part. -/
theorem partStep_obj (acc ty tx : Str) :
    partStep acc (.obj ty tx) =
      (if ty ≠ "text".toList ∧ ty ≠ "output_text".toList then acc
       else if tx = [] then acc else acc ++ tx) := rfl

/-- The content-part fold writes, onto any accumulator, exactly the in-order
concatenation of the texts of the "text"/"output_text" parts (skipping an
empty text changes nothing, since it contributes the empty string). -/
theorem foldl_partStep (l : List Part) :
    ∀ acc : Str, l.foldl partStep acc = acc ++ partsTextSpec l := by
  induction l with
  | nil =>
      intro acc
      simp [partsTextSpec]
  | cons p t ih =>
      intro acc
      cases p with
      | nonObj =>
          rw [List.foldl_cons, partsTextSpec_cons_nonObj]
          exact ih acc
      | obj ty tx =>
          rw [List.foldl_cons]
          by_cases hty : ty = "text".toList ∨ ty = "output_text".toList
          · have hg : ¬(ty ≠ "text".toList ∧ ty ≠ "output_text".toList) := by
              tauto
            rw [partsTextSpec_cons_obj_pos ty tx t hty]
            show List.foldl partStep (partStep acc (.obj ty tx)) t = _
            rw [partStep_obj, if_neg hg]
            by_cases htx : tx = []
            · subst htx
              rw [if_pos rfl, ih acc]
              simp
            · rw [if_neg htx, ih (acc ++ tx), List.append_assoc]
          · have hg : ty ≠ "text".toList ∧ ty ≠ "output_text".toList := by
              tauto
            rw [partsTextSpec_cons_obj_neg ty tx t hty]
            show List.foldl partStep (partStep acc (.obj ty tx)) t = _
            rw [partStep_obj, if_pos hg]
            exact ih acc

/-- C9: for every assistant message, the extracted textual content is the
content itself when it is a plain string; the in-order concatenation of
exactly those parts whose type is "text" or "output_text" when the content
is an ordered list of typed parts, skipping all other part types; and the
empty string for any other content shape. -/
theorem C9_message_content (m : Message) :
    messageContent (some m) =
      (match m.content with
       | .str s => s
       | .parts l => partsTextSpec l
       | .other => []) := by
  cases hc : m.content with
  | str s => simp [messageContent, hc]
  | parts l => simp [messageContent, hc, foldl_partStep]
  | other => simp [messageContent, hc]

/-- Occurrence count of a line in a list of lines (Go slices of strings have
no `count`; this is the counting function the claims about the compiled
profile are stated with). -/
def countOcc (a : Str) : List Str → Nat
  | [] => 0
  | b :: l => (if b = a then 1 else 0) + countOcc a l

/-- Lemma: `countOcc` distributes over concatenation. -/
theorem countOcc_append (a : Str) (l m : List Str) :
    countOcc a (l ++ m) = countOcc a l + countOcc a m := by
  induction l with
  | nil => simp [countOcc]
  | cons b t ih => simp [countOcc, ih]; omega

/-- Lemma: `countOcc` on a singleton. -/
theorem countOcc_singleton (a b : Str) :
    countOcc a [b] = if b = a then 1 else 0 := by
  simp [countOcc]

/-- A line absent from a list has count zero. -/
theorem countOcc_eq_zero (a : Str) (l : List Str) (h : ∀ x ∈ l, a ≠ x) :
    countOcc a l = 0 := by
  induction l with
  | nil => rfl
  | cons b t ih =>
      rw [countOcc, if_neg (fun e => h b (List.mem_cons_self b t) e.symm),
        ih (fun x hx => h x (List.mem_cons_of_mem b hx))]

/-- Counting `f x` in `map f l` for injective `f` counts `x` in `l`. -/
theorem countOcc_map_inj (f : Str → Str) (hf : ∀ a b, f a = f b → a = b)
    (x : Str) (l : List Str) : countOcc (f x) (l.map f) = countOcc x l := by
  induction l with
  | nil => rfl
  | cons b t ih =>
      by_cases hb : b = x
      · subst hb
        simp [List.map_cons, countOcc, ih]
      · rw [List.map_cons, countOcc, countOcc,
          if_neg (fun e => hb (hf b x e)), if_neg hb, ih]

/-- A line that no `f p` equals has count zero in `map f l`. -/
theorem countOcc_map_zero (f : Str → Str) (a : Str) (h : ∀ p, a ≠ f p)
    (l : List Str) : countOcc a (l.map f) = 0 := by
  apply countOcc_eq_zero
  intro x hx
  rcases List.mem_map.1 hx with ⟨p, _, rfl⟩
  exact h p

/-- Within the fixed rule prefix, a per-path rule line's character is the
prefix's character, whatever the path. -/
theorem pathRule_getElem (pre post p : Str) (i : Nat) (h : i < pre.length) :
    (pre ++ p ++ post)[i]? = pre[i]? := by
  rw [List.append_assoc, List.getElem?_append_left h]

/-- Lists differing at some position are different. -/
theorem ne_of_getElem (a b : Str) (i : Nat) (h : a[i]? ≠ b[i]?) : a ≠ b :=
  fun e => h (by rw [e])

/-- A read rule differs from any line whose character at `i` differs from the
read-rule prefix's. -/
theorem readRule_ne (p l : Str) (i : Nat) (hi : i < readRulePre.length)
    (h : readRulePre[i]? ≠ l[i]?) : readRule p ≠ l := by
  unfold readRule
  exact fun e => h (by rw [← pathRule_getElem readRulePre ruleClose p i hi, e])

/-- A write rule differs from any line whose character at `i` differs from
the write-rule prefix's. -/
theorem writeRule_ne (p l : Str) (i : Nat) (hi : i < writeRulePre.length)
    (h : writeRulePre[i]? ≠ l[i]?) : writeRule p ≠ l := by
  unfold writeRule
  exact fun e => h (by rw [← pathRule_getElem writeRulePre ruleClose p i hi, e])

/-- An exec rule differs from any line whose character at `i` differs from
the exec-rule prefix's. -/
theorem execRule_ne (p l : Str) (i : Nat) (hi : i < execRulePre.length)
    (h : execRulePre[i]? ≠ l[i]?) : execRule p ≠ l := by
  unfold execRule
  exact fun e => h (by rw [← pathRule_getElem execRulePre ruleClose p i hi, e])

/-- Read rules are never write rules (they differ at position 12). -/
theorem readRule_ne_writeRule (p q : Str) : readRule p ≠ writeRule q := by
  apply ne_of_getElem _ _ 12
  unfold readRule writeRule
  rw [pathRule_getElem readRulePre ruleClose p 12 (by decide),
    pathRule_getElem writeRulePre ruleClose q 12 (by decide)]
  decide

/-- Read rules are never exec rules (they differ at position 7). -/
theorem readRule_ne_execRule (p q : Str) : readRule p ≠ execRule q := by
  apply ne_of_getElem _ _ 7
  unfold readRule execRule
  rw [pathRule_getElem readRulePre ruleClose p 7 (by decide),
    pathRule_getElem execRulePre ruleClose q 7 (by decide)]
  decide

/-- Write rules are never exec rules (they differ at position 7). -/
theorem writeRule_ne_execRule (p q : Str) : writeRule p ≠ execRule q := by
  apply ne_of_getElem _ _ 7
  unfold writeRule execRule
  rw [pathRule_getElem writeRulePre ruleClose p 7 (by decide),
    pathRule_getElem execRulePre ruleClose q 7 (by decide)]
  decide

/-- Lemma: `readRule` is injective in the path. -/
theorem readRule_inj (a b : Str) (h : readRule a = readRule b) : a = b := by
  unfold readRule at h
  rw [List.append_assoc, List.append_assoc] at h
  exact List.append_cancel_right (List.append_cancel_left h)

/-- Lemma: `writeRule` is injective in the path. -/
theorem writeRule_inj (a b : Str) (h : writeRule a = writeRule b) : a = b := by
  unfold writeRule at h
  rw [List.append_assoc, List.append_assoc] at h
  exact List.append_cancel_right (List.append_cancel_left h)

/-- Lemma: `execRule` is injective in the path. -/
theorem execRule_inj (a b : Str) (h : execRule a = execRule b) : a = b := by
  unfold execRule at h
  rw [List.append_assoc, List.append_assoc] at h
  exact List.append_cancel_right (List.append_cancel_left h)

/-- No fixed head line is a read rule. -/
theorem readRule_ne_head (p : Str) : ∀ x ∈ profileHead, readRule p ≠ x := by
  intro x hx
  simp only [profileHead, List.mem_cons, List.not_mem_nil, or_false] at hx
  rcases hx with h | h | h | h <;> subst h
  · exact readRule_ne p _ 1 (by decide) (by decide)
  · exact readRule_ne p _ 1 (by decide) (by decide)
  · exact readRule_ne p _ 7 (by decide) (by decide)
  · exact readRule_ne p _ 7 (by decide) (by decide)

/-- No fixed essentials line is a read rule. -/
theorem readRule_ne_essentials (p : Str) :
    ∀ x ∈ profileEssentials, readRule p ≠ x := by
  intro x hx
  simp only [profileEssentials, List.mem_cons, List.not_mem_nil, or_false] at hx
  rcases hx with h | h | h | h | h | h | h <;> subst h
  · exact readRule_ne p _ 16 (by decide) (by decide)
  · exact readRule_ne p _ 7 (by decide) (by decide)
  · exact readRule_ne p _ 7 (by decide) (by decide)
  · exact readRule_ne p _ 7 (by decide) (by decide)
  · exact readRule_ne p _ 7 (by decide) (by decide)
  · exact readRule_ne p _ 18 (by decide) (by decide)
  · exact readRule_ne p _ 12 (by decide) (by decide)

/-- No fixed head line is a write rule. -/
theorem writeRule_ne_head (p : Str) : ∀ x ∈ profileHead, writeRule p ≠ x := by
  intro x hx
  simp only [profileHead, List.mem_cons, List.not_mem_nil, or_false] at hx
  rcases hx with h | h | h | h <;> subst h
  · exact writeRule_ne p _ 1 (by decide) (by decide)
  · exact writeRule_ne p _ 1 (by decide) (by decide)
  · exact writeRule_ne p _ 7 (by decide) (by decide)
  · exact writeRule_ne p _ 7 (by decide) (by decide)

/-- No fixed essentials line is a write rule. -/
theorem writeRule_ne_essentials (p : Str) :
    ∀ x ∈ profileEssentials, writeRule p ≠ x := by
  intro x hx
  simp only [profileEssentials, List.mem_cons, List.not_mem_nil, or_false] at hx
  rcases hx with h | h | h | h | h | h | h <;> subst h
  · exact writeRule_ne p _ 12 (by decide) (by decide)
  · exact writeRule_ne p _ 7 (by decide) (by decide)
  · exact writeRule_ne p _ 7 (by decide) (by decide)
  · exact writeRule_ne p _ 7 (by decide) (by decide)
  · exact writeRule_ne p _ 7 (by decide) (by decide)
  · exact writeRule_ne p _ 12 (by decide) (by decide)
  · exact writeRule_ne p _ 12 (by decide) (by decide)

/-- No fixed head line is an exec rule. -/
theorem execRule_ne_head (p : Str) : ∀ x ∈ profileHead, execRule p ≠ x := by
  intro x hx
  simp only [profileHead, List.mem_cons, List.not_mem_nil, or_false] at hx
  rcases hx with h | h | h | h <;> subst h
  · exact execRule_ne p _ 1 (by decide) (by decide)
  · exact execRule_ne p _ 1 (by decide) (by decide)
  · exact execRule_ne p _ 15 (by decide) (by decide)
  · exact execRule_ne p _ 19 (by decide) (by decide)

/-- No fixed essentials line is an exec rule. -/
theorem execRule_ne_essentials (p : Str) :
    ∀ x ∈ profileEssentials, execRule p ≠ x := by
  intro x hx
  simp only [profileEssentials, List.mem_cons, List.not_mem_nil, or_false] at hx
  rcases hx with h | h | h | h | h | h | h <;> subst h <;>
    exact execRule_ne p _ 7 (by decide) (by decide)

/-- No per-path rule is a network line. -/
theorem rules_ne_network (p : Str) :
    readRule p ≠ allowNetworkLine ∧ readRule p ≠ denyNetworkLine ∧
    writeRule p ≠ allowNetworkLine ∧ writeRule p ≠ denyNetworkLine ∧
    execRule p ≠ allowNetworkLine ∧ execRule p ≠ denyNetworkLine :=
  ⟨readRule_ne p _ 7 (by decide) (by decide),
   readRule_ne p _ 1 (by decide) (by decide),
   writeRule_ne p _ 7 (by decide) (by decide),
   writeRule_ne p _ 1 (by decide) (by decide),
   execRule_ne p _ 7 (by decide) (by decide),
   execRule_ne p _ 1 (by decide) (by decide)⟩

/-- No per-path rule is the default-deny line. -/
theorem rules_ne_denyDefault (p : Str) :
    readRule p ≠ denyDefaultLine ∧ writeRule p ≠ denyDefaultLine ∧
    execRule p ≠ denyDefaultLine :=
  ⟨readRule_ne p _ 1 (by decide) (by decide),
   writeRule_ne p _ 1 (by decide) (by decide),
   execRule_ne p _ 1 (by decide) (by decide)⟩

/-- The generated profile is exactly the concatenation of its line list. -/
theorem generateProfile_eq_flatten (cfg : SandboxConfig) :
    generateProfile cfg = (profileLines cfg).flatten := by
  simp [generateProfile, profileLines, List.flatten_append, List.append_assoc]

/-- C2: for every `SandboxConfig`, the compiled profile is a deterministic
pure function of the config (here literally a function of `cfg`, the
concatenation of its line list): its lines hold exactly one allow-rule per
entry of `readPaths`, `writePaths` and `execPaths` in the respective
category, exactly one baseline `(deny default)` declaration, and exactly one
network rule whose polarity (allow vs deny) matches `allowNetwork`. -/
theorem C2_profile_compilation (cfg : SandboxConfig) :
    generateProfile cfg = (profileLines cfg).flatten
    ∧ countOcc denyDefaultLine (profileLines cfg) = 1
    ∧ (∀ p, countOcc (readRule p) (profileLines cfg) = countOcc p cfg.readPaths)
    ∧ (∀ p, countOcc (writeRule p) (profileLines cfg) = countOcc p cfg.writePaths)
    ∧ (∀ p, countOcc (execRule p) (profileLines cfg) = countOcc p cfg.execPaths)
    ∧ countOcc allowNetworkLine (profileLines cfg) =
        (if cfg.allowNetwork then 1 else 0)
    ∧ countOcc denyNetworkLine (profileLines cfg) =
        (if cfg.allowNetwork then 0 else 1) := by
  refine ⟨generateProfile_eq_flatten cfg, ?_, ?_, ?_, ?_, ?_, ?_⟩
  · -- exactly one default-deny line
    simp only [profileLines, countOcc_append]
    rw [countOcc_map_zero readRule _ (fun p => ((rules_ne_denyDefault p).1).symm),
      countOcc_map_zero writeRule _ (fun p => ((rules_ne_denyDefault p).2.1).symm),
      countOcc_map_zero execRule _ (fun p => ((rules_ne_denyDefault p).2.2).symm)]
    have hnet : countOcc denyDefaultLine
        [if cfg.allowNetwork then allowNetworkLine else denyNetworkLine] = 0 := by
      cases cfg.allowNetwork <;> decide
    rw [hnet]
    have h1 : countOcc denyDefaultLine profileHead = 1 := by decide
    have h2 : countOcc denyDefaultLine profileEssentials = 0 := by decide
    omega
  · -- one read rule per readPaths entry
    intro p
    simp only [profileLines, countOcc_append]
    rw [countOcc_eq_zero _ profileHead (readRule_ne_head p),
      countOcc_eq_zero _ profileEssentials (readRule_ne_essentials p),
      countOcc_map_inj readRule readRule_inj,
      countOcc_map_zero writeRule _ (fun q => readRule_ne_writeRule p q),
      countOcc_map_zero execRule _ (fun q => readRule_ne_execRule p q)]
    have hnet : countOcc (readRule p)
        [if cfg.allowNetwork then allowNetworkLine else denyNetworkLine] = 0 := by
      cases cfg.allowNetwork <;>
        simp [countOcc_singleton, ((rules_ne_network p).1).symm,
          ((rules_ne_network p).2.1).symm]
    rw [hnet]
    omega
  · -- one write rule per writePaths entry
    intro p
    simp only [profileLines, countOcc_append]
    rw [countOcc_eq_zero _ profileHead (writeRule_ne_head p),
      countOcc_eq_zero _ profileEssentials (writeRule_ne_essentials p),
      countOcc_map_inj writeRule writeRule_inj,
      countOcc_map_zero readRule _ (fun q => (readRule_ne_writeRule q p).symm),
      countOcc_map_zero execRule _ (fun q => writeRule_ne_execRule p q)]
    have hnet : countOcc (writeRule p)
        [if cfg.allowNetwork then allowNetworkLine else denyNetworkLine] = 0 := by
      cases cfg.allowNetwork <;>
        simp [countOcc_singleton, ((rules_ne_network p).2.2.1).symm,
          ((rules_ne_network p).2.2.2.1).symm]
    rw [hnet]
    omega
  · -- one exec rule per execPaths entry
    intro p
    simp only [profileLines, countOcc_append]
    rw [countOcc_eq_zero _ profileHead (execRule_ne_head p),
      countOcc_eq_zero _ profileEssentials (execRule_ne_essentials p),
      countOcc_map_inj execRule execRule_inj,
      countOcc_map_zero readRule _ (fun q => (readRule_ne_execRule q p).symm),
      countOcc_map_zero writeRule _ (fun q => (writeRule_ne_execRule q p).symm)]
    have hnet : countOcc (execRule p)
        [if cfg.allowNetwork then allowNetworkLine else denyNetworkLine] = 0 := by
      cases cfg.allowNetwork <;>
        simp [countOcc_singleton, ((rules_ne_network p).2.2.2.2.1).symm,
          ((rules_ne_network p).2.2.2.2.2).symm]
    rw [hnet]
    omega
  · -- the allow-network line appears iff allowNetwork
    simp only [profileLines, countOcc_append]
    rw [countOcc_map_zero readRule _ (fun p => ((rules_ne_network p).1).symm),
      countOcc_map_zero writeRule _ (fun p => ((rules_ne_network p).2.2.1).symm),
      countOcc_map_zero execRule _ (fun p => ((rules_ne_network p).2.2.2.2.1).symm)]
    have h1 : countOcc allowNetworkLine profileHead = 0 := by decide
    have h2 : countOcc allowNetworkLine profileEssentials = 0 := by decide
    have hnet : countOcc allowNetworkLine
        [if cfg.allowNetwork then allowNetworkLine else denyNetworkLine] =
        (if cfg.allowNetwork then 1 else 0) := by
      cases cfg.allowNetwork <;> decide
    rw [h1, h2, hnet]
    cases cfg.allowNetwork <;> simp
  · -- the deny-network line appears iff not allowNetwork
    simp only [profileLines, countOcc_append]
    rw [countOcc_map_zero readRule _ (fun p => ((rules_ne_network p).2.1).symm),
      countOcc_map_zero writeRule _ (fun p => ((rules_ne_network p).2.2.2.1).symm),
      countOcc_map_zero execRule _ (fun p => ((rules_ne_network p).2.2.2.2.2).symm)]
    have h1 : countOcc denyNetworkLine profileHead = 0 := by decide
    have h2 : countOcc denyNetworkLine profileEssentials = 0 := by decide
    have hnet : countOcc denyNetworkLine
        [if cfg.allowNetwork then allowNetworkLine else denyNetworkLine] =
        (if cfg.allowNetwork then 0 else 1) := by
      cases cfg.allowNetwork <;> decide
    rw [h1, h2, hnet]
    cases cfg.allowNetwork <;> simp

/-- C10: the default `SandboxConfig` sets `ReadPaths` to exactly the single
entry "/" (the filesystem root) — so the compiled default profile contains
the allow-rule granting read access to the entire filesystem subtree — and
sets `AllowNetwork` to false and `FallbackOutsideSandbox` to true, for any
environment (`sandboxAvailable`, working directory, temp directory). -/
theorem C10_default_config (avail : Bool) (cwd tmp : Str) :
    (DefaultSandboxConfig avail cwd tmp).readPaths = [ "/".toList]
    ∧ (DefaultSandboxConfig avail cwd tmp).allowNetwork = false
    ∧ (DefaultSandboxConfig avail cwd tmp).fallbackOutsideSandbox = true
    ∧ readRule ( "/".toList) ∈ profileLines (DefaultSandboxConfig avail cwd tmp) := by
  refine ⟨rfl, rfl, rfl, ?_⟩
  simp only [profileLines, List.mem_append]
  left
  left
  left
  left
  right
  simp [DefaultSandboxConfig]

/-- A batch in which some call is declined by the approval hook ends
cancelled. -/
theorem execBatch_snd_true (env : SandboxEnv) (hooks : ChatHooks)
    (l : List ToolCall)
    (h : ∃ tc ∈ l, approveCall hooks tc.function.name
      (hooks.decode tc.function.arguments) = false) :
    (execBatch env hooks l).2 = true := by
  induction l with
  | nil =>
      rcases h with ⟨tc, htc, _⟩
      exact absurd htc (List.not_mem_nil tc)
  | cons tc rest ih =>
      rcases h with ⟨tc0, htc0, hdecl⟩
      rcases List.mem_cons.1 htc0 with rfl | hmem
      · simp [execBatch, hdecl]
      · by_cases happ : approveCall hooks tc.function.name
            (hooks.decode tc.function.arguments) = true
        · have hrest := ih ⟨tc0, hmem, hdecl⟩
          rcases hE : execBatch env hooks rest with ⟨ms, c⟩
          rw [hE] at hrest
          simp [execBatch, happ, hE, hrest]
        · rcases hv : approveCall hooks tc.function.name
              (hooks.decode tc.function.arguments) with _ | _
          · simp [execBatch, hv]
          · exact absurd hv happ

/-- A batch in which every call is approved is not cancelled. -/
theorem execBatch_snd_false (env : SandboxEnv) (hooks : ChatHooks)
    (l : List ToolCall)
    (h : ∀ tc ∈ l, approveCall hooks tc.function.name
      (hooks.decode tc.function.arguments) = true) :
    (execBatch env hooks l).2 = false := by
  induction l with
  | nil => rfl
  | cons tc rest ih =>
      have hrest := ih (fun tc htc => h tc (List.mem_cons_of_mem _ htc))
      rcases hE : execBatch env hooks rest with ⟨ms, c⟩
      rw [hE] at hrest
      simp [execBatch, h tc (List.mem_cons_self tc rest), hE, hrest]

/-- C3: for any conversation history `H` at the start of a turn, if the
approval hook declines any tool call in that turn's batch, the post-turn
history equals `H` exactly (same list, hence same length and content): the
assistant message appended at the start of the turn is discarded and zero
tool-role messages from the batch are appended, and the turn ends the
conversation (`cancelled`, at the same turn counter). -/
theorem C3_cancellation_rollback (env : SandboxEnv) (hooks : ChatHooks)
    (respond : RespondOracle) (r turns : Nat) (msgs : List Message)
    (hdecl : ∃ tc ∈ (respond msgs).toolCalls,
      approveCall hooks tc.function.name
        (hooks.decode tc.function.arguments) = false) :
    chatGo env hooks respond (r + 1) turns msgs = (.cancelled, turns, msgs) := by
  have hne : (respond msgs).toolCalls ≠ [] := by
    rintro hnil
    rcases hdecl with ⟨tc, htc, _⟩
    rw [hnil] at htc
    exact absurd htc (List.not_mem_nil tc)
  have hie : (respond msgs).toolCalls.isEmpty = false := by
    rcases hL : (respond msgs).toolCalls with _ | ⟨a, l⟩
    · exact absurd hL hne
    · rfl
  have hcan := execBatch_snd_true env hooks (respond msgs).toolCalls hdecl
  rcases hE : execBatch env hooks (respond msgs).toolCalls with ⟨results, cancelled⟩
  rw [hE] at hcan
  simp [chatGo, hie, hE, hcan]

/-- If the model always answers with further tool calls and the hook approves
everything, the turn loop always exhausts its budget: it exits with
`maxTurnsExceeded` and its exit counter adds exactly the remaining budget. -/
theorem chatGo_maxTurns (env : SandboxEnv) (hooks : ChatHooks)
    (respond : RespondOracle)
    (htc : ∀ msgs, ((respond msgs).toolCalls).isEmpty = false)
    (happ : ∀ msgs, ∀ tc ∈ (respond msgs).toolCalls,
      approveCall hooks tc.function.name
        (hooks.decode tc.function.arguments) = true) :
    ∀ (r turns : Nat) (msgs : List Message),
      (chatGo env hooks respond r turns msgs).1 = .maxTurnsExceeded ∧
      (chatGo env hooks respond r turns msgs).2.1 = turns + r := by
  intro r
  induction r with
  | zero => exact fun turns msgs => ⟨rfl, rfl⟩
  | succ n ih =>
      intro turns msgs
      have hnc := execBatch_snd_false env hooks (respond msgs).toolCalls (happ msgs)
      rcases hE : execBatch env hooks (respond msgs).toolCalls with ⟨results, cancelled⟩
      rw [hE] at hnc
      subst hnc
      have hstep : chatGo env hooks respond (n + 1) turns msgs =
          chatGo env hooks respond n (turns + 1)
            ((msgs ++ [respond msgs]) ++ results) := by
        simp [chatGo, htc msgs, hE]
      have hrec := ih (turns + 1) ((msgs ++ [respond msgs]) ++ results)
      rw [hstep]
      exact ⟨hrec.1, hrec.2.trans (by omega)⟩

/-- C7: for every conversation whose model response always carries further
tool calls, none of which are declined by the approval hook, `Chat`
terminates with the `MaxTurnsExceeded` error after exactly the configured
turn cap (`maxChatTurns` model round-trips — the exit turn counter equals
the cap), never fewer or more. -/
theorem C7_turn_budget (env : SandboxEnv) (hooks : ChatHooks)
    (respond : RespondOracle)
    (htc : ∀ msgs, ((respond msgs).toolCalls).isEmpty = false)
    (happ : ∀ msgs, ∀ tc ∈ (respond msgs).toolCalls,
      approveCall hooks tc.function.name
        (hooks.decode tc.function.arguments) = true)
    (msgs0 : List Message) (input : Str) :
    (Chat env hooks respond msgs0 input).1 = .maxTurnsExceeded ∧
    (Chat env hooks respond msgs0 input).2.1 = maxChatTurns := by
  unfold Chat
  have h := chatGo_maxTurns env hooks respond htc happ maxChatTurns 0
    (msgs0 ++ [{ role := "user".toList, content := .str input }])
  exact ⟨h.1, h.2.trans (by omega)⟩

/-- C4: given a denial result for a command under an enabled sandbox with
`fallbackOutsideSandbox` set, the fallback negotiator
(`ExecuteShellWithSandbox`) invokes the approval callback with
(command, reason); on approval it re-executes the byte-identical command
text via the unconfined path and returns that result; if the callback
declines or no callback is configured, it returns the original denial
result unchanged (the code offers the fallback whenever a callback exists,
so the claimed behaviour holds in particular with the flag set). -/
theorem C4_fallback_negotiation (env : SandboxEnv) (command : Str)
    (m : ExecMeta)
    (_hflag : env.cfg.fallbackOutsideSandbox = true)
    (hon : IsSandboxEnabled env = true)
    (hmeta : (ExecuteShell env command).execMeta = some m)
    (hden : m.sandboxError = true) :
    (∀ f : Str → Str → Bool,
      (f command m.sandboxReason = true →
        ExecuteShellWithSandbox env (some f) command =
          (ExecuteShellUnsandboxed env command,
           [.execSandboxed command,
            .consultFallback command m.sandboxReason,
            .execUnsandboxed command]))
      ∧ (f command m.sandboxReason = false →
        ExecuteShellWithSandbox env (some f) command =
          (ExecuteShell env command,
           [.execSandboxed command,
            .consultFallback command m.sandboxReason])))
    ∧ ExecuteShellWithSandbox env none command =
        (ExecuteShell env command, [.execSandboxed command]) := by
  have hms : metaSandboxError (ExecuteShell env command) = true := by
    unfold metaSandboxError
    rw [hmeta]
    exact hden
  have hmr : metaSandboxReason (ExecuteShell env command) = m.sandboxReason := by
    unfold metaSandboxReason
    rw [hmeta]
  refine ⟨fun f => ⟨fun hf => ?_, fun hf => ?_⟩, ?_⟩
  · simp [ExecuteShellWithSandbox, hon, hms, hmr, hf]
  · simp [ExecuteShellWithSandbox, hon, hms, hmr, hf]
  · simp [ExecuteShellWithSandbox, hon, hms, hmr]

/-- The event is a consultation of the pre-execution approval hook. -/
def isPreConsult (e : ShellEvent) : Bool :=
  match e with
  | .consultPre _ => true
  | _ => false

/-- The event is a consultation of the denial-fallback hook. -/
def isFallbackConsult (e : ShellEvent) : Bool :=
  match e with
  | .consultFallback _ _ => true
  | _ => false

/-- C5: when confinement is globally disabled, the configured approval
callback (`OnSubagentToolCall`) is consulted exactly once, before any
execution attempt, and the command executes only on approval; no
denial-fallback consultation happens, so this pre-execution decision is
distinct from the post-attempt fallback decision. -/
theorem C5_pre_execution_approval (env : SandboxEnv)
    (onFb : Option (Str → Str → Bool))
    (h : Str → Args → ExecMeta → Bool) (command : Str) (args : Args)
    (hdis : IsSandboxEnabled env = false) :
    agentExecuteShellWithSandbox env onFb (some h) command args =
      (if h runShellName args { sandboxed := false } then
        (ExecuteShellUnsandboxed env command,
         [.consultPre runShellName, .execUnsandboxed command])
      else
        (cancelledResult, [.consultPre runShellName]))
    ∧ ((agentExecuteShellWithSandbox env onFb (some h) command args).2.filter
        isPreConsult).length = 1
    ∧ ((agentExecuteShellWithSandbox env onFb (some h) command args).2.filter
        isFallbackConsult).length = 0
    ∧ (agentExecuteShellWithSandbox env onFb (some h) command args).2.head? =
        some (.consultPre runShellName) := by
  rcases hv : h runShellName args { sandboxed := false } with _ | _ <;>
    simp [agentExecuteShellWithSandbox, hdis, hv, isPreConsult, isFallbackConsult]

/-- A minimal environment with confinement disabled (used by witnesses). -/
def envOff : SandboxEnv where
  cfg := {}
  avail := false
  raw := fun _ => {}
  rawUn := fun _ => { output := "hello".toList, elapsed := "0.0".toList }

/-- An environment with an enabled sandbox whose every invocation is denied
by policy: the OS reports a write denial with exit code 1 (used by
witnesses). -/
def envDenied : SandboxEnv where
  cfg := { enabled := true, fallbackOutsideSandbox := true }
  avail := true
  raw := fun _ =>
    { output := "sandbox: deny file-write /usr/local/x".toList,
      err := some (.exitError 1), elapsed := "0.1".toList }
  rawUn := fun _ => { output := "done".toList, elapsed := "0.0".toList }

/-- The metadata `envDenied`'s sandboxed run produces. -/
def deniedMeta : ExecMeta where
  sandboxed := true
  sandboxError := true
  sandboxReason := "write access denied".toList

/-- Hooks with no approval hook configured (auto-approve) and trivial
oracles (used by witnesses). -/
def hooksAuto : ChatHooks where
  decode := fun _ => []
  execTool := fun _ _ => {}

/-- Hooks whose approval hook declines the tool name "bad" (used by the C3
witness). -/
def hooksDeclineBad : ChatHooks where
  onToolCall := some fun name _ => !(name = "bad".toList)
  decode := fun _ => []
  execTool := fun _ _ => { output := "ok".toList }

/-- An assistant message carrying one tool call named "noop" (used by the C7
witness). -/
def msgOneCall : Message where
  role := "assistant".toList
  toolCalls := [{ id := "1".toList, function := { name := "noop".toList } }]

/-- An assistant message whose second tool call is named "bad" (used by the
C3 witness). -/
def msgTwoCalls : Message where
  role := "assistant".toList
  toolCalls :=
    [ { id := "1".toList, function := { name := "noop".toList } },
      { id := "2".toList, function := { name := "bad".toList } } ]

/-- C3 witness: with a two-call batch whose second call the hook declines,
the turn returns the start-of-turn history unchanged. -/
theorem C3_cancellation_rollback_witness :
    chatGo envOff hooksDeclineBad (fun _ => msgTwoCalls) (2 + 1) 0
        [{ role := "user".toList, content := .str ( "hi".toList) }] =
      (.cancelled, 0,
        [{ role := "user".toList, content := .str ( "hi".toList) }]) :=
  C3_cancellation_rollback envOff hooksDeclineBad (fun _ => msgTwoCalls) 2 0
    [{ role := "user".toList, content := .str ( "hi".toList) }]
    ⟨{ id := "2".toList, function := { name := "bad".toList } },
      by decide, by decide⟩

/-- C7 witness: a model that always asks for an approved tool call drives
`Chat` to `MaxTurnsExceeded` after exactly `maxChatTurns` round-trips. -/
theorem C7_turn_budget_witness :
    (Chat envOff hooksAuto (fun _ => msgOneCall) [] []).1 =
        ChatOutcome.maxTurnsExceeded ∧
    (Chat envOff hooksAuto (fun _ => msgOneCall) [] []).2.1 = maxChatTurns :=
  C7_turn_budget envOff hooksAuto (fun _ => msgOneCall)
    (fun _ => rfl) (fun _ _ _ => rfl) [] []

/-- C4 witness: under `envDenied` the sandboxed attempt is a denial; with an
always-approving callback the negotiator reruns the identical command text
unconfined and returns that result. -/
theorem C4_fallback_negotiation_witness :
    envDenied.cfg.fallbackOutsideSandbox = true ∧
    IsSandboxEnabled envDenied = true ∧
    (ExecuteShell envDenied ( "touch /usr/local/x".toList)).execMeta =
      some deniedMeta ∧
    ExecuteShellWithSandbox envDenied (some fun _ _ => true)
        ( "touch /usr/local/x".toList) =
      (ExecuteShellUnsandboxed envDenied ( "touch /usr/local/x".toList),
       [.execSandboxed ( "touch /usr/local/x".toList),
        .consultFallback ( "touch /usr/local/x".toList)
          deniedMeta.sandboxReason,
        .execUnsandboxed ( "touch /usr/local/x".toList)]) :=
  ⟨rfl, rfl, by decide,
    ((C4_fallback_negotiation envDenied ( "touch /usr/local/x".toList)
        deniedMeta rfl rfl (by decide) rfl).1 (fun _ _ => true)).1 rfl⟩

/-- C5 witness: with confinement disabled and an always-approving
`OnSubagentToolCall`, the hook is consulted exactly once, first, and the
command then runs unconfined. -/
theorem C5_pre_execution_approval_witness :
    IsSandboxEnabled envOff = false ∧
    agentExecuteShellWithSandbox envOff none (some fun _ _ _ => true)
        ( "echo hello".toList) [] =
      (if (fun _ _ _ => true : Str → Args → ExecMeta → Bool) runShellName []
          { sandboxed := false } then
        (ExecuteShellUnsandboxed envOff ( "echo hello".toList),
         [.consultPre runShellName, .execUnsandboxed ( "echo hello".toList)])
      else
        (cancelledResult, [.consultPre runShellName])) :=
  ⟨rfl,
    (C5_pre_execution_approval envOff none (fun _ _ _ => true)
      ( "echo hello".toList) [] rfl).1⟩

/-- The spec's pre-task scenario: a task with done-marker "{{DONE}}". -/
def scenarioTask : PreTaskConfig where
  name := "exploring".toList
  systemPrompt := "You are a documentation agent.".toList
  input := "Begin".toList
  doneMarker := "\x7b\x7bDONE\x7d\x7d".toList

/-- Turn-1 reply of the scenario: plain text without the done-marker and
with no tool calls. -/
def msgNoMarker : Message where
  role := "assistant".toList
  content := .str ( "still exploring the repository".toList)

/-- Turn-2 reply of the scenario: plain text containing the done-marker. -/
def msgWithMarker : Message where
  role := "assistant".toList
  content := .str ( "all sections are present \x7b\x7bDONE\x7d\x7d".toList)

/-- The scenario's model: the marker-free text on the first round-trip (the
seeded history has two messages), the marker-bearing text afterwards. -/
def scenarioRespond : RespondOracle :=
  fun msgs => if msgs.length ≤ 2 then msgNoMarker else msgWithMarker

/-- The history a pre-task seeds for `scenarioTask`. -/
def scenarioSeed : List Message :=
  [ { role := "system".toList, content := .str scenarioTask.systemPrompt },
    { role := "user".toList, content := .str ( "Begin".toList) } ]

/-- C6 (evaluation at the failing input): in the turn-capped revision the
pre-task loop completes during its very first iteration (`turns = 0`, one
model round-trip) although the extracted text does not contain the task's
done-marker — `runPreTask` never consults `task.doneMarker`, contradicting
the claim (and the loop's own comment "Run task loop until DoneMarker
detected"); the earlier marker-checking termination condition
(`preTaskGoMarker`) completes the same scenario after exactly 2 round-trips,
as the claim states. -/
theorem C6_pretask_marker_ignored :
    runPreTask envOff hooksAuto scenarioRespond scenarioTask =
      (.completed, 0, scenarioSeed ++ [msgNoMarker])
    ∧ strContains (messageContent (some msgNoMarker))
        scenarioTask.doneMarker = false
    ∧ preTaskGoMarker scenarioRespond scenarioTask.doneMarker
        maxPreTaskTurns 0 scenarioSeed =
      some (2, scenarioSeed ++ [msgNoMarker, msgWithMarker]) := by
  refine ⟨?_, by decide, ?_⟩ <;> decide

end Bono
